import Mathlib

/-!
Shallow embedding of the order/payment workflow of the restaurant POS
repository (`src/orders/models.py`, with the catalog models of
`src/menu/models.py` referenced only through foreign keys).

Modelling conventions:
* `DecimalField(decimal_places=2)` amounts are embedded as integer cents
  (`Int`), an exact representation of the decimal values the code
  manipulates: `10.00` is `1000`, `20.00` is `2000`.
* Nullable columns are `Option` values.
* The database is a record of row lists; Django's ORM calls become pure
  state-passing functions.  Django's `Sum`/`Max` aggregates return `NULL`
  on an empty set, embedded as `Option`; Python's `x or 0` coalescing is
  `orElse0` (Python treats both `None` and `Decimal("0")` as falsy, and
  both coalesce to the value `0`, so the embedding by `Option.getD`-style
  coalescing is value-exact).
* `rest_framework.exceptions.ValidationError` and Python's `TypeError`
  (raised by an order comparison against `None`) are constructors of
  `Err`; `transaction.atomic` rollback is the `Except` error path, which
  returns no new database state.
* Foreign keys are stored primary keys (`Nat`); `pk = none` is an
  unsaved instance.  Accessing a reverse related manager on an unsaved
  instance filters on a `NULL` key and matches no rows, as in Django.
-/

namespace RestaurantPos

/-- `Order.Status` text choices from `src/orders/models.py`. -/
inductive Status where
  | pending
  | processing
  | completed
deriving DecidableEq, Repr

/-- `Order.DeliveryMode` text choices. -/
inductive DeliveryMode where
  | take_away
  | eat_in
deriving DecidableEq, Repr

/-- Exceptions that the modelled code can raise. `validationError` is
`rest_framework.exceptions.ValidationError`; `typeError` is Python's
`TypeError` (comparison of a number with `None`); `integrityError` is the
database rejecting a write that violates the declared
`unique_together = ('order_number', 'order_date')` constraint;
`doesNotExist` models a dangling foreign key lookup. -/
inductive Err where
  | validationError
  | typeError
  | integrityError
  | doesNotExist
deriving DecidableEq, Repr

/-- The `Order` model.  `order_date` is a calendar day encoded as `Nat`;
`total_price` is nullable (blank/null DecimalField), in cents. -/
structure Order where
  pk : Option Nat := none
  order_number : Nat := 0
  order_date : Nat := 0
  status : Status := Status.pending
  service_type : Option DeliveryMode := none
  total_price : Option Int := none
deriving DecidableEq, Repr

/-- The `OrderItem` model.  `order` is the foreign key (order pk);
`product` and `menu_variant` are nullable foreign keys into the catalog. -/
structure OrderItem where
  pk : Option Nat := none
  unit_price : Int
  quantity : Nat := 1
  total_price : Option Int := none
  order : Nat
  product : Option Nat := none
  menu_variant : Option Nat := none
deriving DecidableEq, Repr

/-- The `Payment` model (mode omitted: it never influences control flow). -/
structure Payment where
  pk : Option Nat := none
  order : Nat
  amount : Int
deriving DecidableEq, Repr

/-- The database state: `today` is `timezone.localdate()`, `nextPk` the
next auto primary key, and one row list per table. -/
structure DB where
  today : Nat
  nextPk : Nat
  orders : List Order
  items : List OrderItem
  payments : List Payment
deriving DecidableEq, Repr

/-- Python's `x or 0` applied to a nullable numeric aggregate: `None`
coalesces to `0` (and a falsy `Decimal("0")` also yields `0`, the same
value). -/
def orElse0 : Option Int → Int
  | none => 0
  | some v => v

/-- `x or 0` on the nullable `Max` aggregate of order numbers. -/
def orElse0N : Option Nat → Nat
  | none => 0
  | some v => v

/-- Django `Sum` over non-null values: `NULL` on an empty set. -/
def aggSum (l : List Int) : Option Int :=
  if l.isEmpty then none else some l.sum

/-- SQL `SUM` over a nullable column: `NULL` inputs are skipped and the
result is `NULL` when no non-null input remains. -/
def aggSumOpt (l : List (Option Int)) : Option Int :=
  aggSum (l.filterMap id)

/-- Django `Max` over order numbers: `NULL` on an empty set. -/
def aggMaxN (l : List Nat) : Option Nat :=
  if l.isEmpty then none else some (l.foldr max 0)

/-- Look an order up by primary key. -/
def findOrder (db : DB) (k : Nat) : Option Order :=
  db.orders.find? (fun r => r.pk == some k)

/-- Amounts of the payments related to an order instance
(`self.payments`): rows whose `order` foreign key equals the instance's
pk.  An unsaved instance (`pk = none`) matches no rows. -/
def paymentsOf (db : DB) (opk : Option Nat) : List Int :=
  (db.payments.filter (fun p => some p.order == opk)).map Payment.amount

/-- `total_price` values of the items related to an order instance
(`self.order_items`). -/
def itemsOf (db : DB) (opk : Option Nat) : List (Option Int) :=
  (db.items.filter (fun it => some it.order == opk)).map OrderItem.total_price

/-- The plain sum of the related items' total prices (as the spec words
it: "the sum of the total_price of its current OrderItems"). -/
def itemsTotalSum (db : DB) (opk : Option Nat) : Int :=
  ((db.items.filter (fun it => some it.order == opk)).filterMap OrderItem.total_price).sum

/-- `Order.is_fully_paid`: `total_paid == (self.total_price or 0)` where
`total_paid = self.payments.aggregate(Sum('amount'))['total'] or 0`. -/
def Order.is_fully_paid (db : DB) (o : Order) : Prop :=
  orElse0 (aggSum (paymentsOf db o.pk)) = orElse0 o.total_price

instance (db : DB) (o : Order) : Decidable (o.is_fully_paid db) :=
  inferInstanceAs (Decidable (_ = _))

/-- The `update_fields` argument of `Model.save`: the code only ever
passes `['total_price']` or `['status']`. -/
inductive UpdField where
  | total_price
  | status
deriving DecidableEq, Repr

/-- Writing an instance over an existing row: with `update_fields` only
the listed columns are written, without it every column is. -/
def applyUpd (fields : Option (List UpdField)) (row o : Order) : Order :=
  match fields with
  | none => o
  | some fs =>
      { row with
        total_price := if UpdField.total_price ∈ fs then o.total_price else row.total_price,
        status := if UpdField.status ∈ fs then o.status else row.status }

/-- `order_number`s of the orders already saved on today's date
(`Order.objects.filter(order_date=today)`). -/
def todayNumbers (db : DB) : List Nat :=
  (db.orders.filter (fun r => r.order_date == db.today)).map Order.order_number

/-- `Order.save`: raise unless fully paid when the status is
processing/completed; on first save (no pk) assign today's date and the
next daily order number, then insert; otherwise update the existing row.
Either write is rejected with an integrity error when it would violate
the `unique_together = ('order_number', 'order_date')` constraint. -/
def Order.save (db : DB) (o : Order) (fields : Option (List UpdField)) :
    Except Err (DB × Order) :=
  if (o.status = Status.processing ∨ o.status = Status.completed) ∧ ¬ o.is_fully_paid db then
    .error .validationError
  else
    match o.pk with
    | none =>
        let last := orElse0N (aggMaxN (todayNumbers db))
        let o2 : Order :=
          { o with order_date := db.today, order_number := last + 1, pk := some db.nextPk }
        if db.orders.any (fun r =>
            r.order_number == o2.order_number && r.order_date == o2.order_date) then
          .error .integrityError
        else
          .ok ({ db with orders := db.orders ++ [o2], nextPk := db.nextPk + 1 }, o2)
    | some k =>
        match findOrder db k with
        | none => .error .doesNotExist
        | some row =>
            let newRow := applyUpd fields row o
            if db.orders.any (fun r =>
                !(r.pk == some k) && r.order_number == newRow.order_number &&
                  r.order_date == newRow.order_date) then
              .error .integrityError
            else
              .ok ({ db with
                      orders := db.orders.map (fun r =>
                        if r.pk == some k then applyUpd fields r o else r) }, o)

/-- The database state after attempting `Order.save`: unchanged when the
save raises. -/
def Order.trySave (db : DB) (o : Order) (fields : Option (List UpdField)) : DB :=
  match Order.save db o fields with
  | .ok (db2, _) => db2
  | .error _ => db

/-- `Order.update_total_price`: recompute the aggregate of the related
items' totals (coalesced with `or 0`), and persist only when it differs
from the instance's stored value. -/
def Order.update_total_price (db : DB) (o : Order) : Except Err (DB × Order) :=
  let agg := orElse0 (aggSumOpt (itemsOf db o.pk))
  if o.total_price = some agg then
    .ok (db, o)
  else
    let o2 := { o with total_price := some agg }
    match Order.save db o2 (some [UpdField.total_price]) with
    | .error e => .error e
    | .ok (db2, _) => .ok (db2, o2)

/-- `Order.update_status`: move a fully paid pending order to
processing. -/
def Order.update_status (db : DB) (o : Order) : Except Err (DB × Order) :=
  if o.status = Status.pending ∧ o.is_fully_paid db then
    let o2 := { o with status := Status.processing }
    match Order.save db o2 (some [UpdField.status]) with
    | .error e => .error e
    | .ok (db2, _) => .ok (db2, o2)
  else
    .ok (db, o)

/-- `OrderItem.clean`: exactly one of `product` / `menu_variant` must be
set (Python truthiness of a nullable foreign key: `None` is falsy). -/
def OrderItem.clean (it : OrderItem) : Except Err Unit :=
  if it.product = none ∧ it.menu_variant = none then
    .error .validationError
  else if it.product ≠ none ∧ it.menu_variant ≠ none then
    .error .validationError
  else
    .ok ()

/-- Insert a new item row (assigning the next pk) or overwrite the
existing one. -/
def upsertItem (db : DB) (it : OrderItem) : DB × OrderItem :=
  match it.pk with
  | none =>
      let it2 := { it with pk := some db.nextPk }
      ({ db with items := db.items ++ [it2], nextPk := db.nextPk + 1 }, it2)
  | some k =>
      ({ db with items := db.items.map (fun r => if r.pk == some k then it else r) }, it)

/-- `OrderItem.save`: `full_clean` (running `clean`), recompute
`total_price = unit_price * quantity`, then atomically write the row and
refresh the parent order's total; an error rolls the pair back. -/
def OrderItem.save (db : DB) (it : OrderItem) : Except Err (DB × OrderItem) :=
  match it.clean with
  | .error e => .error e
  | .ok () =>
      let it1 := { it with total_price := some (it.unit_price * (it.quantity : Int)) }
      let (db1, it2) := upsertItem db it1
      match findOrder db1 it2.order with
      | none => .error .doesNotExist
      | some o =>
          match Order.update_total_price db1 o with
          | .error e => .error e
          | .ok (db2, _) => .ok (db2, it2)

/-- `OrderItem` deletion.  The source defines no `delete` override and
connects no signal, so Django's default `Model.delete` applies: the row
is removed and nothing recomputes the parent order's total. -/
def OrderItem.delete (db : DB) (itPk : Nat) : DB :=
  { db with items := db.items.filter (fun it => !(it.pk == some itPk)) }

/-- `Payment.clean`: compute the already-paid aggregate, then compare
`total_paid + self.amount > self.order.total_price`.  When the order's
total is `None` the Python comparison raises `TypeError`; otherwise an
excess raises `ValidationError`. -/
def Payment.clean (db : DB) (p : Payment) : Except Err Unit :=
  match findOrder db p.order with
  | none => .error .doesNotExist
  | some o =>
      let total_paid := orElse0 (aggSum (paymentsOf db o.pk))
      match o.total_price with
      | none => .error .typeError
      | some t =>
          if total_paid + p.amount > t then .error .validationError else .ok ()

/-- Insert a new payment row or overwrite the existing one. -/
def upsertPayment (db : DB) (p : Payment) : DB × Payment :=
  match p.pk with
  | none =>
      let p2 := { p with pk := some db.nextPk }
      ({ db with payments := db.payments ++ [p2], nextPk := db.nextPk + 1 }, p2)
  | some k =>
      ({ db with payments := db.payments.map (fun q => if q.pk == some k then p else q) }, p)

/-- `Payment.save`: `full_clean` (running `clean`), then atomically write
the row and update the parent order's status. -/
def Payment.save (db : DB) (p : Payment) : Except Err DB :=
  match Payment.clean db p with
  | .error e => .error e
  | .ok () =>
      let (db1, _) := upsertPayment db p
      match findOrder db1 p.order with
      | none => .error .doesNotExist
      | some o =>
          match Order.update_status db1 o with
          | .error e => .error e
          | .ok (db2, _) => .ok db2

/-! ### Basic lemmas about the aggregate embeddings -/

/-- The `or 0`-coalesced `Sum` aggregate is the plain list sum. -/
lemma orElse0_aggSum (l : List Int) : orElse0 (aggSum l) = l.sum := by
  cases l <;> simp [aggSum, orElse0]

/-- The coalesced nullable-column `SUM` over the related items is
`itemsTotalSum`. -/
lemma orElse0_aggSumOpt_itemsOf (db : DB) (opk : Option Nat) :
    orElse0 (aggSumOpt (itemsOf db opk)) = itemsTotalSum db opk := by
  unfold aggSumOpt itemsOf itemsTotalSum
  rw [List.filterMap_map]
  exact orElse0_aggSum _

/-- Every member of a list of naturals is bounded by its `max` fold. -/
lemma le_foldr_max {l : List Nat} {x : Nat} (hx : x ∈ l) : x ≤ l.foldr max 0 := by
  induction l with
  | nil => cases hx
  | cons a l ih =>
      rcases List.mem_cons.mp hx with h | h
      · subst h; exact le_max_left _ _
      · exact le_trans (ih h) (le_max_right _ _)

/-- The coalesced `Max` aggregate is the `max` fold. -/
lemma orElse0N_aggMaxN (l : List Nat) : orElse0N (aggMaxN l) = l.foldr max 0 := by
  cases l <;> simp [aggMaxN, orElse0N]

/-- Freshly allocated daily number: no existing order of today's date
already carries `max + 1`, so the insert never trips the
`(order_number, order_date)` uniqueness constraint. -/
lemma no_today_conflict (db : DB) :
    db.orders.any (fun r =>
      r.order_number == orElse0N (aggMaxN (todayNumbers db)) + 1 &&
        r.order_date == db.today) = false := by
  rw [List.any_eq_false]
  intro r hr
  simp only [Bool.and_eq_true, beq_iff_eq, not_and]
  intro hnum hdate
  have hmem : r.order_number ∈ todayNumbers db := by
    unfold todayNumbers
    exact List.mem_map_of_mem _ (List.mem_filter.mpr ⟨hr, by simp [hdate]⟩)
  have hle : r.order_number ≤ (todayNumbers db).foldr max 0 := le_foldr_max hmem
  rw [orElse0N_aggMaxN] at hnum
  omega

/-- `find?` by primary key commutes with mapping a pk-preserving row
update over the table. -/
lemma find?_map_of_pk_eq (g : Order → Order) (hg : ∀ r, (g r).pk = r.pk)
    (l : List Order) (k : Nat) :
    (l.map g).find? (fun r => r.pk == some k) =
      (l.find? (fun r => r.pk == some k)).map g := by
  induction l with
  | nil => rfl
  | cons a l ih =>
      by_cases h : a.pk = some k
      · rw [List.map_cons, List.find?_cons_of_pos, List.find?_cons_of_pos]
        · rfl
        · simp [h]
        · simp [hg, h]
      · rw [List.map_cons, List.find?_cons_of_neg, List.find?_cons_of_neg, ih]
        · simp [h]
        · simp [hg, h]

/-- A found order row is a member of the table and carries the looked-up
primary key. -/
lemma findOrder_mem_pk {db : DB} {k : Nat} {o : Order}
    (h : findOrder db k = some o) : o ∈ db.orders ∧ o.pk = some k := by
  unfold findOrder at h
  refine ⟨List.mem_of_find?_eq_some h, ?_⟩
  have := List.find?_some h
  simpa using this

/-! ### Characterizations of `Order.save` -/

/-- The row inserted by a first save: today's date, the next daily
number, the next primary key. -/
def insertedOrder (db : DB) (o : Order) : Order :=
  { o with order_date := db.today,
           order_number := orElse0N (aggMaxN (todayNumbers db)) + 1,
           pk := some db.nextPk }

/-- A save with status processing/completed on a not fully paid order
raises the validation error (before touching the database). -/
lemma Order.save_gate_error (db : DB) (o : Order) (fields : Option (List UpdField))
    (hst : o.status = Status.processing ∨ o.status = Status.completed)
    (hnp : ¬ o.is_fully_paid db) :
    Order.save db o fields = .error .validationError := by
  unfold Order.save
  rw [if_pos ⟨hst, hnp⟩]

/-- A first save that passes the payment gate inserts the freshly
numbered row (the uniqueness constraint never fires on the insert). -/
lemma Order.save_insert (db : DB) (o : Order) (hpk : o.pk = none)
    (hgate : ¬((o.status = Status.processing ∨ o.status = Status.completed) ∧
      ¬ o.is_fully_paid db)) :
    Order.save db o none =
      .ok ({ db with orders := db.orders ++ [insertedOrder db o], nextPk := db.nextPk + 1 },
           insertedOrder db o) := by
  unfold Order.save
  rw [if_neg hgate, hpk]
  have hnc := no_today_conflict db
  simp only [insertedOrder]
  rw [if_neg (by simp [hnc])]

/-- An update save that passes the payment gate and the uniqueness
constraint overwrites the pk-matched row with the listed fields. -/
lemma Order.save_update (db : DB) (o row : Order) (k : Nat) (fields : Option (List UpdField))
    (hpk : o.pk = some k) (hrow : findOrder db k = some row)
    (hgate : ¬((o.status = Status.processing ∨ o.status = Status.completed) ∧
      ¬ o.is_fully_paid db))
    (hnc : db.orders.any (fun r =>
      !(r.pk == some k) && r.order_number == (applyUpd fields row o).order_number &&
        r.order_date == (applyUpd fields row o).order_date) = false) :
    Order.save db o fields =
      .ok ({ db with orders := db.orders.map (fun r =>
              if r.pk == some k then applyUpd fields r o else r) }, o) := by
  unfold Order.save
  rw [if_neg hgate, hpk]
  dsimp only
  rw [hrow]
  dsimp only
  rw [if_neg (by simp [hnc])]

/-- Inversion of a successful first save (the fields argument plays no
role on the insert path). -/
lemma Order.save_insert_ok {db : DB} {o : Order} {fields : Option (List UpdField)}
    {db2 : DB} {o2 : Order}
    (hpk : o.pk = none) (hok : Order.save db o fields = .ok (db2, o2)) :
    o2 = insertedOrder db o ∧
      db2 = { db with orders := db.orders ++ [insertedOrder db o], nextPk := db.nextPk + 1 } := by
  unfold Order.save at hok
  rw [hpk] at hok
  dsimp only at hok
  split at hok
  · cases hok
  · split at hok
    · cases hok
    · cases hok
      exact ⟨rfl, rfl⟩

/-- Inversion of a successful update save. -/
lemma Order.save_update_ok {db : DB} {o : Order} {k : Nat}
    {fields : Option (List UpdField)} {db2 : DB} {o2 : Order}
    (hpk : o.pk = some k) (hok : Order.save db o fields = .ok (db2, o2)) :
    o2 = o ∧
      db2 = { db with orders := db.orders.map (fun r =>
        if r.pk == some k then applyUpd fields r o else r) } := by
  unfold Order.save at hok
  rw [hpk] at hok
  dsimp only at hok
  split at hok
  · cases hok
  · split at hok
    · cases hok
    · split at hok
      · cases hok
      · cases hok
        exact ⟨rfl, rfl⟩

/-- A save never touches the item and payment tables, the clock, or the
pk counter except to advance it. -/
lemma Order.save_ok_frame {db : DB} {o : Order} {fields : Option (List UpdField)}
    {db2 : DB} {o2 : Order} (hok : Order.save db o fields = .ok (db2, o2)) :
    db2.items = db.items ∧ db2.payments = db.payments ∧ db2.today = db.today := by
  unfold Order.save at hok
  split at hok
  · cases hok
  · split at hok
    · dsimp only at hok
      split at hok
      · cases hok
      · cases hok
        exact ⟨rfl, rfl, rfl⟩
    · split at hok
      · cases hok
      · dsimp only at hok
        split at hok
        · cases hok
        · cases hok
          exact ⟨rfl, rfl, rfl⟩

/-- The update save applies a pk-preserving map to the order table. -/
lemma applyUpd_pk (fields : Option (List UpdField)) (row o : Order)
    (h : o.pk = row.pk) : (applyUpd fields row o).pk = row.pk := by
  cases fields with
  | none => exact h
  | some fs => rfl

/-! ### Concrete states for the end-to-end scenario

An empty database on day 1, a freshly created order, one line item of
unit price 10.00 (1000 cents) and quantity 2, and a payment of 20.00
(2000 cents).  The intermediate database values are spelled out and the
pipeline equalities are proved by evaluation. -/

/-- The empty database on day 1. -/
def db0 : DB := { today := 1, nextPk := 1, orders := [], items := [], payments := [] }

/-- A freshly constructed `Order()` (all columns at their defaults,
`total_price` unset). -/
def freshOrder : Order := {}

/-- The order row as first saved: number 1 on day 1, total unset. -/
def scnO1 : Order := { pk := some 1, order_number := 1, order_date := 1 }

/-- The database after saving the fresh order. -/
def scnDb1 : DB := { today := 1, nextPk := 2, orders := [scnO1], items := [], payments := [] }

/-- The new line item: unit price 10.00, quantity 2, product set. -/
def scnItem : OrderItem := { unit_price := 1000, quantity := 2, order := 1, product := some 7 }

/-- The item row as saved (total recomputed to 20.00). -/
def scnItem2 : OrderItem :=
  { pk := some 2, unit_price := 1000, quantity := 2, total_price := some 2000,
    order := 1, product := some 7 }

/-- The order row after the item save refreshed its total. -/
def scnO1T : Order := { pk := some 1, order_number := 1, order_date := 1, total_price := some 2000 }

/-- The database after the item save. -/
def scnDb2 : DB := { today := 1, nextPk := 3, orders := [scnO1T], items := [scnItem2], payments := [] }

/-- The payment of 20.00 covering the order. -/
def scnPay : Payment := { order := 1, amount := 2000 }

/-- The order row after full payment moved it to processing. -/
def scnO1P : Order :=
  { pk := some 1, order_number := 1, order_date := 1, status := Status.processing,
    total_price := some 2000 }

/-- A second order created on day 1: it receives daily number 2. -/
def o2nd : Order := { pk := some 2, order_number := 2, order_date := 1 }

/-- The database holding the two day-1 orders. -/
def db2nd : DB := { today := 1, nextPk := 3, orders := [scnO1, o2nd], items := [], payments := [] }

/-- The intermediate state inside the payment save: the payment row is
in, the order still pending (as `update_status` sees it). -/
def dbPaidPending : DB :=
  { today := 1, nextPk := 4, orders := [scnO1T], items := [scnItem2],
    payments := [{ pk := some 3, order := 1, amount := 2000 }] }

/-- The database after the payment save. -/
def scnDb3 : DB :=
  { today := 1, nextPk := 4, orders := [scnO1P], items := [scnItem2],
    payments := [{ pk := some 3, order := 1, amount := 2000 }] }

/-- C8: starting from a fresh order with `total_price` unset, saving an
item with unit price 10.00 and quantity 2 makes the order's total 20.00
(the item total being recomputed as unit price times quantity), and then
saving a payment of 20.00 moves the order's status to processing. -/
theorem c8_scenario_pipeline :
    Order.save db0 freshOrder none = .ok (scnDb1, scnO1)
    ∧ OrderItem.save scnDb1 scnItem = .ok (scnDb2, scnItem2)
    ∧ scnItem2.total_price = some (scnItem.unit_price * (scnItem.quantity : Int))
    ∧ (findOrder scnDb2 1).map Order.total_price = some (some 2000)
    ∧ Payment.save scnDb2 scnPay = .ok scnDb3
    ∧ (findOrder scnDb3 1).map Order.status = some Status.processing :=
  ⟨rfl, rfl, rfl, rfl, rfl, rfl⟩

/-! ### Lemmas about `Payment` saves and status updates -/

/-- A clean that passed bounds the cumulative amount by the total. -/
lemma payment_clean_ok_bound {db : DB} {p : Payment} {o : Order} {t : Int}
    (hfind : findOrder db p.order = some o) (ht : o.total_price = some t)
    (hok : Payment.clean db p = .ok ()) :
    (paymentsOf db o.pk).sum + p.amount ≤ t := by
  unfold Payment.clean at hok
  rw [hfind] at hok
  dsimp only at hok
  rw [ht] at hok
  dsimp only at hok
  rw [orElse0_aggSum] at hok
  split at hok
  · cases hok
  · next h => omega

/-- A clean that sees an excess raises the validation error. -/
lemma payment_clean_excess {db : DB} {p : Payment} {o : Order} {t : Int}
    (hfind : findOrder db p.order = some o) (ht : o.total_price = some t)
    (hgt : (paymentsOf db o.pk).sum + p.amount > t) :
    Payment.clean db p = .error .validationError := by
  unfold Payment.clean
  rw [hfind]
  dsimp only
  rw [ht]
  dsimp only
  rw [orElse0_aggSum]
  rw [if_pos hgt]

/-- `update_status` never touches the item and payment tables. -/
lemma Order.update_status_ok_frame {db : DB} {o : Order} {db2 : DB} {o2 : Order}
    (h : Order.update_status db o = .ok (db2, o2)) :
    db2.payments = db.payments ∧ db2.items = db.items := by
  unfold Order.update_status at h
  split at h
  · dsimp only at h
    split at h
    · cases h
    · next heq =>
        cases h
        have := Order.save_ok_frame heq
        exact ⟨this.2.1, this.1⟩
  · cases h
    exact ⟨rfl, rfl⟩

/-- Inversion of a successful save of a new payment: the clean passed
and the payment row was appended. -/
lemma payment_save_ok_inv {db : DB} {p : Payment} {db2 : DB}
    (hpk : p.pk = none) (hok : Payment.save db p = .ok db2) :
    Payment.clean db p = .ok () ∧
      db2.payments = db.payments ++ [{ p with pk := some db.nextPk }] := by
  unfold Payment.save at hok
  split at hok
  · cases hok
  · next heq =>
      refine ⟨heq, ?_⟩
      unfold upsertPayment at hok
      rw [hpk] at hok
      dsimp only at hok
      split at hok
      · cases hok
      · split at hok
        · cases hok
        · next heq2 =>
            cases hok
            exact (Order.update_status_ok_frame heq2).1

/-! ### The `(order_number, order_date)` uniqueness invariant -/

/-- Two rows on the same date carry different order numbers. -/
def dayRel (a b : Order) : Prop :=
  a.order_date = b.order_date → a.order_number ≠ b.order_number

/-- The `unique_together` invariant over the order table. -/
def sameDayDistinct (orders : List Order) : Prop :=
  orders.Pairwise dayRel

/-- Saved rows carry pairwise distinct primary keys (the database's pk
uniqueness). -/
def distinctPks (orders : List Order) : Prop :=
  orders.Pairwise (fun a b => a.pk ≠ b.pk)

lemma dayRel_symm {a b : Order} (h : dayRel a b) : dayRel b a :=
  fun hd hn => h hd.symm hn.symm

/-- With pairwise distinct pks, any member carrying the looked-up pk is
the row `find?` returns. -/
lemma mem_pk_unique {l : List Order} {k : Nat} {row : Order}
    (hpks : l.Pairwise (fun a b => a.pk ≠ b.pk))
    (hfind : l.find? (fun r => r.pk == some k) = some row) :
    ∀ q ∈ l, q.pk = some k → q = row := by
  induction l with
  | nil => intro q hq; cases hq
  | cons a l ih =>
      intro q hq hqk
      rcases List.pairwise_cons.mp hpks with ⟨ha, hl⟩
      by_cases hak : a.pk = some k
      · rw [List.find?_cons_of_pos _ (by simp [hak])] at hfind
        cases hfind
        rcases List.mem_cons.mp hq with h | h
        · exact h
        · exact absurd (hqk.trans hak.symm).symm (ha q h)
      · rw [List.find?_cons_of_neg _ (by simp [hak])] at hfind
        rcases List.mem_cons.mp hq with h | h
        · subst h; exact absurd hqk hak
        · exact ih hl hfind q h hqk

/-- Mapping a pk-targeted update over a table with pairwise distinct
pks preserves the same-day-distinct invariant, provided the updated row
collides with no other row. -/
lemma sameDayDistinct_map_update (l : List Order) (k : Nat) (o : Order)
    (fields : Option (List UpdField))
    (hpks : l.Pairwise (fun a b => a.pk ≠ b.pk))
    (hday : l.Pairwise dayRel)
    (hch : ∀ r ∈ l, r.pk ≠ some k → ∀ q ∈ l, q.pk = some k →
      dayRel r (applyUpd fields q o)) :
    (l.map (fun r => if r.pk == some k then applyUpd fields r o else r)).Pairwise dayRel := by
  induction l with
  | nil => exact List.Pairwise.nil
  | cons a l ih =>
      rcases List.pairwise_cons.mp hpks with ⟨hapk, hlpk⟩
      rcases List.pairwise_cons.mp hday with ⟨haday, hlday⟩
      rw [List.map_cons]
      refine List.pairwise_cons.mpr ⟨?_, ?_⟩
      · intro c hc
        rcases List.mem_map.mp hc with ⟨b, hb, rfl⟩
        by_cases hak : a.pk = some k
        · have hbk : b.pk ≠ some k := fun h => (hapk b hb) (hak.trans h.symm)
          rw [if_pos (by simp [hak]), if_neg (by simp [hbk])]
          exact dayRel_symm
            (hch b (List.mem_cons_of_mem _ hb) hbk a (List.mem_cons_self _ _) hak)
        · rw [if_neg (by simp [hak])]
          by_cases hbk : b.pk = some k
          · rw [if_pos (by simp [hbk])]
            exact hch a (List.mem_cons_self _ _) hak b (List.mem_cons_of_mem _ hb) hbk
          · rw [if_neg (by simp [hbk])]
            exact haday b hb
      · exact ih hlpk hlday (fun r hr hrk q hq hqk =>
          hch r (List.mem_cons_of_mem _ hr) hrk q (List.mem_cons_of_mem _ hq) hqk)

/-- Inversion of a successful update save including the fact that the
uniqueness-constraint check passed. -/
lemma Order.save_update_ok_conflict {db : DB} {o : Order} {k : Nat}
    {fields : Option (List UpdField)} {db2 : DB} {o2 : Order}
    (hpk : o.pk = some k) (hok : Order.save db o fields = .ok (db2, o2)) :
    ∃ row, findOrder db k = some row ∧
      (db.orders.any (fun r =>
        !(r.pk == some k) && r.order_number == (applyUpd fields row o).order_number &&
          r.order_date == (applyUpd fields row o).order_date)) = false ∧
      db2.orders = db.orders.map (fun r =>
        if r.pk == some k then applyUpd fields r o else r) := by
  unfold Order.save at hok
  rw [hpk] at hok
  dsimp only at hok
  split at hok
  · cases hok
  · split at hok
    · cases hok
    · next row heq =>
        split at hok
        · cases hok
        · next h =>
            cases hok
            exact ⟨row, heq, by simpa using h, rfl⟩

/-! ### Lemmas about item saves -/

/-- The saved item keeps its `order` foreign key. -/
lemma upsertItem_order (db : DB) (it : OrderItem) :
    (upsertItem db it).2.order = it.order := by
  unfold upsertItem
  rcases hp : it.pk with _ | k <;> rfl

/-- An item write leaves the order table untouched. -/
lemma upsertItem_orders (db : DB) (it : OrderItem) :
    (upsertItem db it).1.orders = db.orders := by
  unfold upsertItem
  rcases hp : it.pk with _ | k <;> rfl

/-- The row update applied by a fielded save keeps each row's pk. -/
lemma updRow_pk (k : Nat) (fields : Option (List UpdField)) (o : Order) (r : Order)
    (hpk : o.pk = some k) :
    (if r.pk == some k then applyUpd fields r o else r).pk = r.pk := by
  split
  · next h =>
      have hr : r.pk = some k := by simpa using h
      cases fields with
      | none => exact hpk.trans hr.symm
      | some fs => rfl
  · rfl

/-! ### Claim theorems -/

/-- C6: an `OrderItem` passes validation exactly when one of
`product` / `menu_variant` is set; it fails with a validation error when
neither is set and when both are set. -/
theorem c6_exactly_one_reference (it : OrderItem) :
    (it.clean = Except.ok () ↔
      ((it.product ≠ none ∧ it.menu_variant = none) ∨
        (it.product = none ∧ it.menu_variant ≠ none)))
    ∧ (it.product = none ∧ it.menu_variant = none →
        it.clean = .error .validationError)
    ∧ (it.product ≠ none ∧ it.menu_variant ≠ none →
        it.clean = .error .validationError) := by
  unfold OrderItem.clean
  by_cases h1 : it.product = none <;> by_cases h2 : it.menu_variant = none <;>
    simp [h1, h2]

/-- Witness for C6 at a concrete item with neither reference set. -/
theorem c6_exactly_one_reference_witness :
    (({ unit_price := 500, order := 1 } : OrderItem).product = none ∧
      ({ unit_price := 500, order := 1 } : OrderItem).menu_variant = none) ∧
    ({ unit_price := 500, order := 1 } : OrderItem).clean = .error .validationError :=
  ⟨⟨rfl, rfl⟩, (c6_exactly_one_reference _).2.1 ⟨rfl, rfl⟩⟩

/-- C5: saving an order whose status is processing or completed while the
summed payments differ from its (set) total price raises the validation
error, and the stored state is unchanged by the rejected save. -/
theorem c5_premature_status_rejected (db : DB) (o : Order)
    (fields : Option (List UpdField)) (t : Int)
    (hst : o.status = Status.processing ∨ o.status = Status.completed)
    (ht : o.total_price = some t)
    (hne : (paymentsOf db o.pk).sum ≠ t) :
    Order.save db o fields = .error .validationError ∧
      Order.trySave db o fields = db := by
  have hnp : ¬ o.is_fully_paid db := by
    unfold Order.is_fully_paid
    rw [orElse0_aggSum, ht]
    simpa [orElse0] using hne
  have h := Order.save_gate_error db o fields hst hnp
  refine ⟨h, ?_⟩
  unfold Order.trySave
  rw [h]

/-- Witness for C5: the scenario order marked processing with no payment
recorded. -/
theorem c5_premature_status_rejected_witness :
    (scnO1P.status = Status.processing ∨ scnO1P.status = Status.completed) ∧
    scnO1P.total_price = some 2000 ∧
    (paymentsOf scnDb2 scnO1P.pk).sum ≠ 2000 ∧
    Order.save scnDb2 scnO1P none = .error .validationError ∧
    Order.trySave scnDb2 scnO1P none = scnDb2 := by
  refine ⟨Or.inl rfl, rfl, by decide, ?_, ?_⟩
  · exact (c5_premature_status_rejected scnDb2 scnO1P none 2000 (Or.inl rfl) rfl (by decide)).1
  · exact (c5_premature_status_rejected scnDb2 scnO1P none 2000 (Or.inl rfl) rfl (by decide)).2

/-- C9: adding a payment to an order whose `total_price` is unset hits
the unguarded comparison against `None`: the attempt raises `TypeError`,
not the documented validation error. -/
theorem c9_unset_total_unguarded (db : DB) (p : Payment) (o : Order)
    (hfind : findOrder db p.order = some o) (ht : o.total_price = none) :
    Payment.clean db p = .error .typeError
    ∧ Payment.save db p = .error .typeError
    ∧ Err.typeError ≠ Err.validationError := by
  have hclean : Payment.clean db p = .error .typeError := by
    unfold Payment.clean
    rw [hfind]
    dsimp only
    rw [ht]
  refine ⟨hclean, ?_, by decide⟩
  unfold Payment.save
  rw [hclean]

/-- Witness for C9: paying into the scenario order before any item gave
it a total. -/
theorem c9_unset_total_unguarded_witness :
    findOrder scnDb1 1 = some scnO1 ∧ scnO1.total_price = none ∧
    Payment.clean scnDb1 { order := 1, amount := 500 } = .error .typeError ∧
    Payment.save scnDb1 { order := 1, amount := 500 } = .error .typeError :=
  ⟨rfl, rfl,
    (c9_unset_total_unguarded scnDb1 { order := 1, amount := 500 } scnO1 rfl rfl).1,
    (c9_unset_total_unguarded scnDb1 { order := 1, amount := 500 } scnO1 rfl rfl).2.1⟩

/-- C10: an order with no payments and an unset or zero total is fully
paid under the coalescing check, so a fresh order can be saved directly
with status processing or completed without any payment recorded. -/
theorem c10_zero_total_fully_paid (db : DB) (o : Order)
    (hpay : paymentsOf db o.pk = [])
    (ht : o.total_price = none ∨ o.total_price = some 0)
    (hst : o.status = Status.processing ∨ o.status = Status.completed) :
    o.is_fully_paid db
    ∧ ((insertedOrder db o).status = Status.processing ∨
        (insertedOrder db o).status = Status.completed)
    ∧ (o.pk = none →
        Order.save db o none =
          .ok ({ db with orders := db.orders ++ [insertedOrder db o], nextPk := db.nextPk + 1 }, insertedOrder db o)) := by
  have hfp : o.is_fully_paid db := by
    unfold Order.is_fully_paid
    rw [hpay]
    rcases ht with h | h <;> rw [h] <;> rfl
  refine ⟨hfp, hst, fun hpk => ?_⟩
  exact Order.save_insert db o hpk (by simp [hfp])

/-- Witness for C10: a fresh order marked completed with no items and no
payments saves successfully on the empty database. -/
theorem c10_zero_total_fully_paid_witness :
    paymentsOf db0 (none : Option Nat) = [] ∧
    Order.is_fully_paid db0 { status := Status.completed } ∧
    Order.save db0 { status := Status.completed } none =
      .ok ({ db0 with orders := [insertedOrder db0 { status := Status.completed }], nextPk := 2 }, insertedOrder db0 { status := Status.completed }) := by
  have h := c10_zero_total_fully_paid db0 { status := Status.completed }
    rfl (Or.inl rfl) (Or.inr rfl)
  exact ⟨rfl, h.1, h.2.2 rfl⟩

/-- C4: the first save of an order (no primary key yet) assigns today's
date and the daily order number `max + 1`, strictly above every number
already used today, and `1` when today has no orders yet. -/
theorem c4_daily_numbering (db : DB) (o : Order) (db2 : DB) (o2 : Order)
    (hpk : o.pk = none) (hok : Order.save db o none = .ok (db2, o2)) :
    o2.order_number = (todayNumbers db).foldr max 0 + 1
    ∧ o2.order_date = db.today
    ∧ (∀ r ∈ db.orders, r.order_date = db.today → r.order_number < o2.order_number)
    ∧ (todayNumbers db = [] → o2.order_number = 1) := by
  obtain ⟨ho2, -⟩ := Order.save_insert_ok hpk hok
  subst ho2
  refine ⟨?_, rfl, ?_, ?_⟩
  · show orElse0N (aggMaxN (todayNumbers db)) + 1 = _
    rw [orElse0N_aggMaxN]
  · intro r hr hdate
    have hmem : r.order_number ∈ todayNumbers db := by
      unfold todayNumbers
      exact List.mem_map_of_mem _ (List.mem_filter.mpr ⟨hr, by simp [hdate]⟩)
    have hle := le_foldr_max hmem
    show r.order_number < orElse0N (aggMaxN (todayNumbers db)) + 1
    rw [orElse0N_aggMaxN]
    omega
  · intro h
    show orElse0N (aggMaxN (todayNumbers db)) + 1 = 1
    rw [orElse0N_aggMaxN, h]
    rfl

/-- Witness for C4: the scenario's first order gets number 1 on day 1. -/
theorem c4_daily_numbering_witness :
    freshOrder.pk = none ∧
    Order.save db0 freshOrder none = .ok (scnDb1, scnO1) ∧
    scnO1.order_number = (todayNumbers db0).foldr max 0 + 1 ∧
    scnO1.order_date = db0.today ∧ (todayNumbers db0 = [] → scnO1.order_number = 1) := by
  have h := c4_daily_numbering db0 freshOrder scnDb1 scnO1 rfl rfl
  exact ⟨rfl, rfl, h.1, h.2.1, h.2.2.2⟩

/-- C2: a new payment that would push the cumulative paid amount above
the order's total is rejected with the validation error, and whenever a
payment save succeeds the cumulative paid amount stays bounded by the
total. -/
theorem c2_payments_never_exceed_total (db : DB) (p : Payment) (o : Order) (t : Int)
    (hpk : p.pk = none) (hfind : findOrder db p.order = some o)
    (ht : o.total_price = some t) :
    ((paymentsOf db o.pk).sum + p.amount > t →
        Payment.save db p = .error .validationError)
    ∧ (∀ db2, Payment.save db p = .ok db2 → (paymentsOf db2 o.pk).sum ≤ t) := by
  constructor
  · intro hgt
    have hclean := payment_clean_excess hfind ht hgt
    unfold Payment.save
    rw [hclean]
  · intro db2 hok
    obtain ⟨hclean, hpays⟩ := payment_save_ok_inv hpk hok
    have hbound := payment_clean_ok_bound hfind ht hclean
    have hopk : o.pk = some p.order := (findOrder_mem_pk hfind).2
    have hsplit : paymentsOf db2 o.pk = paymentsOf db o.pk ++ [p.amount] := by
      unfold paymentsOf
      rw [hpays, List.filter_append, List.map_append]
      congr 1
      simp [hopk]
    rw [hsplit, List.sum_append]
    simpa using hbound

/-- Witness for C2: overpaying the 20.00 order fails, and the accepted
exact payment leaves the cumulative amount at the cap. -/
theorem c2_payments_never_exceed_total_witness :
    scnPay.pk = none ∧ findOrder scnDb2 1 = some scnO1T ∧
    scnO1T.total_price = some 2000 ∧
    Payment.save scnDb2 { order := 1, amount := 2500 } = .error .validationError ∧
    (paymentsOf scnDb3 scnO1T.pk).sum ≤ 2000 := by
  refine ⟨rfl, rfl, rfl, ?_, ?_⟩
  · exact (c2_payments_never_exceed_total scnDb2 { order := 1, amount := 2500 }
      scnO1T 2000 rfl rfl rfl).1 (by decide)
  · exact (c2_payments_never_exceed_total scnDb2 scnPay scnO1T 2000 rfl rfl rfl).2
      scnDb3 rfl

/-- C3: on a pending order with a set total, `update_status` moves the
status to processing exactly when the summed payments equal the total;
otherwise the state is returned unchanged. -/
theorem c3_pending_to_processing (db : DB) (o : Order) (k : Nat) (t : Int)
    (hpk : o.pk = some k) (hfind : findOrder db k = some o)
    (hnc : ∀ r ∈ db.orders, r.pk ≠ some k →
      ¬(r.order_number = o.order_number ∧ r.order_date = o.order_date))
    (ht : o.total_price = some t) (hst : o.status = Status.pending) :
    ((paymentsOf db o.pk).sum = t →
      Order.update_status db o =
        .ok ({ db with orders := db.orders.map (fun r => if r.pk == some k then applyUpd (some [UpdField.status]) r { o with status := Status.processing } else r) }, { o with status := Status.processing }))
    ∧ ((paymentsOf db o.pk).sum ≠ t → Order.update_status db o = .ok (db, o)) := by
  have hfp_iff : o.is_fully_paid db ↔ (paymentsOf db o.pk).sum = t := by
    unfold Order.is_fully_paid
    rw [orElse0_aggSum, ht]
    simp [orElse0]
  constructor
  · intro hsum
    have hfp : o.is_fully_paid db := hfp_iff.mpr hsum
    have hfp2 : Order.is_fully_paid db { o with status := Status.processing } := hfp
    have hgate : ¬((({ o with status := Status.processing } : Order).status = Status.processing ∨
        ({ o with status := Status.processing } : Order).status = Status.completed) ∧
        ¬ Order.is_fully_paid db { o with status := Status.processing }) :=
      fun h => h.2 hfp2
    have hanync : db.orders.any (fun r =>
        !(r.pk == some k) &&
          r.order_number == (applyUpd (some [UpdField.status]) o { o with status := Status.processing }).order_number &&
          r.order_date == (applyUpd (some [UpdField.status]) o { o with status := Status.processing }).order_date) = false := by
      rw [List.any_eq_false]
      intro r hr
      simp only [applyUpd, Bool.and_eq_true, Bool.not_eq_true', beq_iff_eq, beq_eq_false_iff_ne,
        not_and, and_imp]
      intro hne hnum
      exact fun hdate => hnc r hr hne ⟨hnum, hdate⟩
    have hsave := Order.save_update db { o with status := Status.processing } o k
      (some [UpdField.status]) hpk hfind hgate hanync
    unfold Order.update_status
    rw [if_pos ⟨hst, hfp⟩]
    dsimp only
    rw [hsave]
  · intro hsum
    have hfp : ¬ o.is_fully_paid db := fun h => hsum (hfp_iff.mp h)
    unfold Order.update_status
    rw [if_neg (fun h => hfp h.2)]

/-- Witness for C3: the scenario order with its exact payment recorded
moves from pending to processing. -/
theorem c3_pending_to_processing_witness :
    scnO1T.pk = some 1 ∧ findOrder dbPaidPending 1 = some scnO1T ∧
    scnO1T.total_price = some 2000 ∧ scnO1T.status = Status.pending ∧
    (paymentsOf dbPaidPending scnO1T.pk).sum = 2000 ∧
    Order.update_status dbPaidPending scnO1T =
      .ok ({ dbPaidPending with orders := dbPaidPending.orders.map (fun r => if r.pk == some 1 then applyUpd (some [UpdField.status]) r { scnO1T with status := Status.processing } else r) }, { scnO1T with status := Status.processing }) := by
  refine ⟨rfl, rfl, rfl, rfl, by decide, ?_⟩
  exact (c3_pending_to_processing dbPaidPending scnO1T 1 2000 rfl rfl
    (by decide) rfl rfl).1 (by decide)

/-- C7: on a table with pairwise distinct pks satisfying the same-day
uniqueness invariant, every successful save (first save or update, any
field set) preserves the invariant: two orders of the same date never
share an order number. -/
theorem c7_same_day_unique_numbers (db : DB) (o : Order)
    (fields : Option (List UpdField)) (db2 : DB) (o2 : Order)
    (hpks : distinctPks db.orders) (hday : sameDayDistinct db.orders)
    (hok : Order.save db o fields = .ok (db2, o2)) :
    sameDayDistinct db2.orders := by
  cases hpko : o.pk with
  | none =>
      obtain ⟨-, hdb2⟩ := Order.save_insert_ok hpko hok
      subst hdb2
      unfold sameDayDistinct
      rw [List.pairwise_append]
      refine ⟨hday, List.pairwise_singleton _ _, ?_⟩
      intro a ha b hb
      rw [List.mem_singleton] at hb
      subst hb
      intro hd hn
      have hd2 : a.order_date = db.today := hd
      have hn2 : a.order_number = orElse0N (aggMaxN (todayNumbers db)) + 1 := hn
      have hmem : a.order_number ∈ todayNumbers db := by
        unfold todayNumbers
        exact List.mem_map_of_mem _ (List.mem_filter.mpr ⟨ha, by simp [hd2]⟩)
      have hle := le_foldr_max hmem
      rw [orElse0N_aggMaxN] at hn2
      omega
  | some k =>
      obtain ⟨row, hfindrow, hnc, hdb2⟩ := Order.save_update_ok_conflict hpko hok
      rw [hdb2]
      exact sameDayDistinct_map_update db.orders k o fields hpks hday
        (fun r hr hrk q hq hqk => by
          have hq_row : q = row := mem_pk_unique hpks hfindrow q hq hqk
          subst hq_row
          have hnr := List.any_eq_false.mp hnc r hr
          simp only [Bool.and_eq_true, Bool.not_eq_true', beq_iff_eq,
            beq_eq_false_iff_ne, not_and, and_imp] at hnr
          exact fun hd hn => hnr hrk hn hd)

/-- Witness for C7: a second order created on day 1 gets number 2, and
the invariant holds on the two-row table. -/
theorem c7_same_day_unique_numbers_witness :
    distinctPks scnDb1.orders ∧ sameDayDistinct scnDb1.orders ∧
    Order.save scnDb1 freshOrder none = .ok (db2nd, o2nd) ∧
    sameDayDistinct db2nd.orders := by
  refine ⟨List.pairwise_singleton _ _, List.pairwise_singleton _ _, rfl, ?_⟩
  exact c7_same_day_unique_numbers scnDb1 freshOrder none db2nd o2nd
    (List.pairwise_singleton _ _) (List.pairwise_singleton _ _) rfl

/-- C1 (amended): after every successful `OrderItem.save` (creation or
update of an item), the parent order's stored `total_price` equals the
sum of its current items' totals; and `update_total_price` performs no
write when the stored total already equals the aggregate.  (Deleting an
item triggers no recomputation — see the counterexample.) -/
theorem c1_item_save_syncs_total :
    (∀ (db : DB) (it : OrderItem) (db2 : DB) (it2 : OrderItem),
      OrderItem.save db it = .ok (db2, it2) →
      ∀ o2, findOrder db2 it.order = some o2 →
        o2.total_price = some (itemsTotalSum db2 (some it.order)))
    ∧ (∀ (db : DB) (o : Order), o.total_price = some (itemsTotalSum db o.pk) →
        Order.update_total_price db o = .ok (db, o)) := by
  constructor
  · intro db it db2 it2 hok o2 hfind2
    unfold OrderItem.save at hok
    split at hok
    · cases hok
    · rcases hup : upsertItem db { it with total_price := some (it.unit_price * (it.quantity : Int)) } with ⟨db1, it3⟩
      dsimp only at hok
      rw [hup] at hok
      dsimp only at hok
      · have hord : it3.order = it.order := by
          have := upsertItem_order db { it with total_price := some (it.unit_price * (it.quantity : Int)) }
          rw [hup] at this
          exact this
        split at hok
        · cases hok
        · next o heq2 =>
            rw [hord] at heq2
            have hopk : o.pk = some it.order := (findOrder_mem_pk heq2).2
            split at hok
            · cases hok
            · next db3 o3 heq3 =>
                cases hok
                unfold Order.update_total_price at heq3
                dsimp only at heq3
                split at heq3
                · next hcond =>
                    cases heq3
                    rw [heq2] at hfind2
                    cases hfind2
                    rw [orElse0_aggSumOpt_itemsOf, hopk] at hcond
                    exact hcond
                · next hcond =>
                    split at heq3
                    · cases heq3
                    · next db4 o5 heq4 =>
                        cases heq3
                        have hpkT : ({ o with total_price := some (orElse0 (aggSumOpt (itemsOf db1 o.pk))) } : Order).pk = some it.order := hopk
                        obtain ⟨-, hdb4⟩ := Order.save_update_ok hpkT heq4
                        subst hdb4
                        unfold findOrder at hfind2 heq2
                        rw [find?_map_of_pk_eq _
                          (fun r => updRow_pk it.order (some [UpdField.total_price]) _ r hpkT) _ _,
                          heq2] at hfind2
                        dsimp only [Option.map] at hfind2
                        cases hfind2
                        show (if (o.pk == some it.order) = true then _ else o).total_price = _
                        rw [if_pos (by simp [hopk])]
                        show some (orElse0 (aggSumOpt (itemsOf db1 o.pk))) = _
                        rw [orElse0_aggSumOpt_itemsOf, hopk]
                        rfl
  · intro db o h
    unfold Order.update_total_price
    dsimp only
    rw [orElse0_aggSumOpt_itemsOf]
    rw [if_pos h]

/-- Witness for C1 (amended) at the scenario item save: the stored total
equals the item sum. -/
theorem c1_item_save_syncs_total_witness :
    OrderItem.save scnDb1 scnItem = .ok (scnDb2, scnItem2) ∧
    findOrder scnDb2 scnItem.order = some scnO1T ∧
    scnO1T.total_price = some (itemsTotalSum scnDb2 (some scnItem.order)) := by
  refine ⟨rfl, rfl, ?_⟩
  exact c1_item_save_syncs_total.1 scnDb1 scnItem scnDb2 scnItem2 rfl scnO1T rfl

/-- Counterexample to C1 as stated: deleting the only item of the 20.00
order (no delete override or signal exists) leaves the stored total at
20.00 while the sum over the order's current items is 0. -/
theorem c1_delete_leaves_stale_total :
    OrderItem.save scnDb1 scnItem = .ok (scnDb2, scnItem2)
    ∧ (findOrder (OrderItem.delete scnDb2 2) 1).map Order.total_price = some (some 2000)
    ∧ itemsTotalSum (OrderItem.delete scnDb2 2) (some 1) = 0
    ∧ some (2000 : Int) ≠ some (itemsTotalSum (OrderItem.delete scnDb2 2) (some 1)) := by
  refine ⟨rfl, rfl, rfl, by decide⟩

end RestaurantPos
